import Mathlib

/-!
Verification of the claims-analytics dashboard pipeline
(`src/DashboardSdateVsDol.py`): column normalization, schema validation,
row cleaning, claim deduplication, feature derivation (loss-lag bucketing)
and the cause-of-loss percentage aggregator, shallowly embedded in Lean.

Modelling choices:
* Dates are day numbers (`Int`); `pd.to_datetime(..., errors="coerce")` is
  an arbitrary total function `String → Option Int` (a parse failure is
  `none`, never an exception), applied cell-wise with `Option.bind` so a
  null cell stays null.
* Monetary amounts are `ℚ` (the float arithmetic of the script on the
  inputs of interest is exact decimal arithmetic; `ℚ` makes the conservation
  and percentage laws exact).  `ℚ` division by zero yields the junk value
  `0`, which stands in for the undefined float result of an unguarded
  division by zero.
* A pandas `DataFrame` is a list of rows plus the list of column names;
  a cell of a nullable column is an `Option`.
* `groupby(key, as_index=False).agg(...)` with pandas' default `sort=True`
  iterates the distinct keys in ascending order; aggregation `"first"`
  takes the first row of the group in original row order, `"min"`/`"sum"`
  fold over the group.
-/

namespace Dashboard

/-- One raw uploaded row (`df_raw`): every cell is nullable; date cells are
still unparsed text.  Field names follow the canonical column names of the
script: `claim_id` = "Nomor klaim", `start_date_raw` = "StartDate",
`date_of_loss_raw` = "Date of Loss", `claim_amount` = "Claim Amount",
`cause_of_loss` = "Cause of Loss", `kode_okupasi` = "Kode Okupasi",
`occupancy` = "Occupancy", `kategori_risiko` = "Kategori Risiko",
`channel` = "Channel Business". -/
structure RawRow where
  claim_id : Option String
  start_date_raw : Option String
  date_of_loss_raw : Option String
  claim_amount : Option ℚ
  cause_of_loss : Option String
  kode_okupasi : Option String
  occupancy : Option String
  kategori_risiko : Option String
  channel : Option String
deriving DecidableEq

/-- An uploaded table: the header (raw column names, before renaming) and
the rows.  For a column absent from `cols` the corresponding `RawRow`
cells are irrelevant: the script never reads them. -/
structure RawTable where
  cols : List String
  rows : List RawRow
deriving DecidableEq

/-- `COLUMN_MAPPING` of the script: alternate spellings renamed to
canonical column names. -/
def COLUMN_MAPPING : List (String × String) :=
  [("Kode okupasi", "Kode Okupasi"),
   ("kode okupasi", "Kode Okupasi"),
   ("Kategori Okupasi", "Kategori Risiko"),
   ("kategori okupasi", "Kategori Risiko"),
   ("EDate", "End Date"),
   ("Edate", "End Date"),
   ("COB", "Channel Business")]

/-- `df_raw.rename(columns=COLUMN_MAPPING)` acting on one column name. -/
def renameCol (c : String) : String :=
  (COLUMN_MAPPING.lookup c).getD c

/-- The header after renaming. -/
def normalizeCols (cols : List String) : List String :=
  cols.map renameCol

/-- `REQUIRED_COLS` of the script. -/
def REQUIRED_COLS : List String :=
  ["Nomor klaim", "StartDate", "Date of Loss", "Claim Amount", "Cause of Loss"]

/-- `OPTIONAL_COLS` of the script. -/
def OPTIONAL_COLS : List String :=
  ["Kode Okupasi", "Occupancy", "Kategori Risiko", "Channel Business"]

/-- `missing_required = [c for c in REQUIRED_COLS if c not in df_raw.columns]`. -/
def missing_required (cols : List String) : List String :=
  REQUIRED_COLS.filter (fun c => !(cols.contains c))

/-- A row of the working table `df` after date parsing: dates are parsed
day numbers (`none` = NaT), all columns still nullable. -/
structure PRow where
  claim_id : Option String
  start_date : Option Int
  date_of_loss : Option Int
  claim_amount : Option ℚ
  cause_of_loss : Option String
  kode_okupasi : Option String
  occupancy : Option String
  kategori_risiko : Option String
  channel : Option String
deriving DecidableEq

/-- `pd.to_datetime(cell, errors="coerce")`: a null cell stays null, an
unparseable cell becomes null (`parse` returning `none`); never raises. -/
def to_datetime_coerce (parse : String → Option Int) (cell : Option String) :
    Option Int :=
  cell.bind parse

/-- Lines 79-80 of the script: parse `StartDate` and `Date of Loss`. -/
def parseDates (parse : String → Option Int) (r : RawRow) : PRow :=
  { claim_id := r.claim_id
    start_date := to_datetime_coerce parse r.start_date_raw
    date_of_loss := to_datetime_coerce parse r.date_of_loss_raw
    claim_amount := r.claim_amount
    cause_of_loss := r.cause_of_loss
    kode_okupasi := r.kode_okupasi
    occupancy := r.occupancy
    kategori_risiko := r.kategori_risiko
    channel := r.channel }

/-- Whether a row survives `df.dropna(subset=REQUIRED_COLS)`: all five
required cells non-null. -/
def requiredOk (r : PRow) : Bool :=
  r.claim_id.isSome && r.start_date.isSome && r.date_of_loss.isSome &&
    r.claim_amount.isSome && r.cause_of_loss.isSome

/-- Line 83 of the script: drop rows with a null required cell. -/
def dropMissing (rs : List PRow) : List PRow :=
  rs.filter requiredOk

/-- Lines 87-91 of the script, for one optional cell: if the column is
absent from the table every value becomes `"ALL"`; if present, a null cell
becomes `"UNKNOWN"` (`fillna`) and a non-null cell is unchanged. -/
def fillOptional (present : Bool) (cell : Option String) : Option String :=
  if present then some (cell.getD "UNKNOWN") else some "ALL"

/-- The optional-column fill applied to one row; `cols` is the table
header (post-rename), deciding presence of each optional column. -/
def fillRow (cols : List String) (r : PRow) : PRow :=
  { r with
    kode_okupasi := fillOptional (cols.contains "Kode Okupasi") r.kode_okupasi
    occupancy := fillOptional (cols.contains "Occupancy") r.occupancy
    kategori_risiko :=
      fillOptional (cols.contains "Kategori Risiko") r.kategori_risiko
    channel := fillOptional (cols.contains "Channel Business") r.channel }

/-- Lines 79-91 of the script: the Row Cleaner.  `cols` is the
post-rename header. -/
def cleanTable (parse : String → Option Int) (cols : List String)
    (rows : List RawRow) : List PRow :=
  (dropMissing (rows.map (parseDates parse))).map (fillRow cols)

/-- The pipeline front end (lines 46-91): rename columns, halt with the
exact missing-required list if any required column is absent, otherwise
clean the rows. -/
def pipeline (parse : String → Option Int) (tbl : RawTable) :
    Except (List String) (List PRow) :=
  let cols := normalizeCols tbl.cols
  let m := missing_required cols
  if m.isEmpty then Except.ok (cleanTable parse cols tbl.rows)
  else Except.error m

/-- A cleaned, fully-populated claim row, input of the deduplicator:
after the drop no required cell is null and every optional cell was
filled, so all fields are plain values. -/
structure Row where
  claim_id : String
  start_date : Int
  date_of_loss : Int
  claim_amount : ℚ
  cause_of_loss : String
  kode_okupasi : String
  occupancy : String
  kategori_risiko : String
  channel : String
deriving DecidableEq

/-- Bridge from the nullable working row to the fully-populated row
(sound on cleaned rows, where every field is `some`). -/
def toRow (p : PRow) : Row :=
  { claim_id := p.claim_id.getD ""
    start_date := p.start_date.getD 0
    date_of_loss := p.date_of_loss.getD 0
    claim_amount := p.claim_amount.getD 0
    cause_of_loss := p.cause_of_loss.getD ""
    kode_okupasi := p.kode_okupasi.getD ""
    occupancy := p.occupancy.getD ""
    kategori_risiko := p.kategori_risiko.getD ""
    channel := p.channel.getD "" }

/-- Distinct claim ids in ascending order: pandas `groupby("Nomor klaim")`
with the default `sort=True` iterates group keys sorted ascending. -/
def keyList (rows : List Row) : List String :=
  List.insertionSort (· ≤ ·) ((rows.map Row.claim_id).dedup)

/-- The group of a key: rows with that claim id, in original order. -/
def group (rows : List Row) (k : String) : List Row :=
  rows.filter (fun r => r.claim_id == k)

/-- Aggregation `"min"` over an integer column of a group (junk `0` on the
empty list; groups are never empty). -/
def aggMin (f : Row → Int) : List Row → Int
  | [] => 0
  | r :: rs => rs.foldl (fun a x => min a (f x)) (f r)

/-- Aggregation `"first"` over a string column of a group. -/
def aggFirst (f : Row → String) : List Row → String
  | [] => ""
  | r :: _ => f r

/-- Aggregation `"sum"` over the amount column of a group. -/
def aggSum (f : Row → ℚ) (g : List Row) : ℚ :=
  (g.map f).sum

/-- Lines 96-109 of the script: the merged row of one group, per the agg
dictionary (`min`, `min`, `sum`, then `first` five times). -/
def mergeGroup (k : String) (g : List Row) : Row :=
  { claim_id := k
    start_date := aggMin Row.start_date g
    date_of_loss := aggMin Row.date_of_loss g
    claim_amount := aggSum Row.claim_amount g
    cause_of_loss := aggFirst Row.cause_of_loss g
    kode_okupasi := aggFirst Row.kode_okupasi g
    occupancy := aggFirst Row.occupancy g
    kategori_risiko := aggFirst Row.kategori_risiko g
    channel := aggFirst Row.channel g }

/-- The Claim Deduplicator, `df.groupby("Nomor klaim", as_index=False).agg({...})`:
one merged row per distinct claim id, keys in ascending order. -/
def dedup (rows : List Row) : List Row :=
  (keyList rows).map (fun k => mergeGroup k (group rows k))

/-- Line 116: `Loss Lag Days = Date of Loss - StartDate` in days (signed). -/
def lossLagDays (r : Row) : Int :=
  r.date_of_loss - r.start_date

/-- Line 117: `Loss Lag Months = Loss Lag Days / 30`. -/
def lossLagMonths (r : Row) : ℚ :=
  (lossLagDays r : ℚ) / 30

/-- Lines 119-129: the `loss_bucket` function of the script. -/
def loss_bucket (x : ℚ) : String :=
  if x ≤ 3 then "0–3 bulan"
  else if x ≤ 6 then ">3–6 bulan"
  else if x ≤ 12 then ">6–12 bulan"
  else if x ≤ 24 then ">12–24 bulan"
  else ">24 bulan"

/-- Line 131: the bucket column. -/
def lossTimingBucket (r : Row) : String :=
  loss_bucket (lossLagMonths r)

/-- Distinct causes of loss in ascending order (`groupby("Cause of Loss")`
key order). -/
def causeKeys (rows : List Row) : List String :=
  List.insertionSort (· ≤ ·) ((rows.map Row.cause_of_loss).dedup)

/-- Lines 211-216: claim frequency per cause of loss. -/
def cause_freq (rows : List Row) : List (String × ℚ) :=
  (causeKeys rows).map
    (fun c => (c, ((rows.filter (fun r => r.cause_of_loss == c)).length : ℚ)))

/-- Lines 231-236: claim amount per cause of loss. -/
def cause_amt (rows : List Row) : List (String × ℚ) :=
  (causeKeys rows).map
    (fun c =>
      (c, ((rows.filter (fun r => r.cause_of_loss == c)).map
            Row.claim_amount).sum))

/-- Lines 218-220 and 238-240: `% Kontribusi` — each group value divided
by the sum of all group values, times 100, with no guard on a zero sum. -/
def pctColumn (groups : List (String × ℚ)) : List (String × ℚ) :=
  let total := (groups.map Prod.snd).sum
  groups.map (fun p => (p.1, p.2 / total * 100))

/-! ## Concrete fixtures for witnesses -/

/-- A date parser that accepts everything (maps every cell to day 0). -/
def parse0 : String → Option Int := fun _ => some 0

/-- A date parser that rejects everything (models an unparseable cell). -/
def parseNone : String → Option Int := fun _ => none

/-- A raw row with all required cells populated. -/
def rawGood : RawRow :=
  ⟨some "K1", some "2021-01-01", some "2021-01-01", some 100, some "Fire",
   none, none, none, none⟩

/-- A raw row whose `Claim Amount` cell is null. -/
def rawNoAmt : RawRow :=
  ⟨some "K2", some "2021-01-01", some "2021-01-01", none, some "Fire",
   none, none, none, none⟩

/-- A header with only the required columns (no optional column present). -/
def cols0 : List String := REQUIRED_COLS

/-- A header with the required and all optional columns. -/
def colsAll : List String := REQUIRED_COLS ++ OPTIONAL_COLS

/-- Scenario A, first raw-equivalent cleaned row: claim `C1`, start day 0,
loss day 0, amount 100. -/
def rowA1 : Row := ⟨"C1", 0, 0, 100, "Fire", "ALL", "ALL", "ALL", "ALL"⟩

/-- Scenario A, second cleaned row: claim `C1`, start day 0, loss day 31
(2021-02-01), amount 150. -/
def rowA2 : Row := ⟨"C1", 0, 31, 150, "Fire", "ALL", "ALL", "ALL", "ALL"⟩

/-- Scenario A cleaned table. -/
def scenarioA : List Row := [rowA1, rowA2]

/-- The merged row for claim `C1` of scenario A. -/
def mergedA : Row := mergeGroup "C1" (group scenarioA "C1")

/-- A cleaned row with amount 5, cause `Fire`. -/
def rowZ1 : Row := ⟨"A", 0, 0, 5, "Fire", "ALL", "ALL", "ALL", "ALL"⟩

/-- A cleaned row with amount -5, cause `Fire`: together with `rowZ1` the
amounts sum to zero while the table is non-empty. -/
def rowZ2 : Row := ⟨"B", 0, 0, -5, "Fire", "ALL", "ALL", "ALL", "ALL"⟩

/-- A non-empty filtered table whose claim amounts sum to zero. -/
def rowsZ : List Row := [rowZ1, rowZ2]

/-! ## Theorems -/

/-- The optional-column fill does not touch the five required fields. -/
theorem fillRow_required (cols : List String) (p : PRow) :
    (fillRow cols p).claim_id = p.claim_id ∧
    (fillRow cols p).start_date = p.start_date ∧
    (fillRow cols p).date_of_loss = p.date_of_loss ∧
    (fillRow cols p).claim_amount = p.claim_amount ∧
    (fillRow cols p).cause_of_loss = p.cause_of_loss :=
  ⟨rfl, rfl, rfl, rfl, rfl⟩

/-- Every row of the cleaned table arises from a raw row that survived the
required-field drop, by date parsing followed by the optional fill. -/
theorem mem_cleanTable_elim {parse : String → Option Int} {cols : List String}
    {rows : List RawRow} {r : PRow} (h : r ∈ cleanTable parse cols rows) :
    ∃ q ∈ rows, requiredOk (parseDates parse q) = true ∧
      r = fillRow cols (parseDates parse q) := by
  simp only [cleanTable, dropMissing, List.mem_map, List.mem_filter] at h
  obtain ⟨p, ⟨⟨q, hq, rfl⟩, hreq⟩, rfl⟩ := h
  exact ⟨q, hq, hreq, rfl⟩

/-- C3: after the Row Cleaner (date parsing, then the drop of rows with a
null required cell) no remaining row has a null value in any of the five
required fields; a raw row whose `Claim Amount` is null is excluded
entirely, and so is a raw row either of whose dates failed to parse. -/
theorem clean_required_nonnull :
    ∀ (parse : String → Option Int) (cols : List String) (rows : List RawRow),
      (∀ r ∈ cleanTable parse cols rows,
        r.claim_id.isSome = true ∧ r.start_date.isSome = true ∧
        r.date_of_loss.isSome = true ∧ r.claim_amount.isSome = true ∧
        r.cause_of_loss.isSome = true) ∧
      (∀ q ∈ rows, q.claim_amount = none →
        fillRow cols (parseDates parse q) ∉ cleanTable parse cols rows) ∧
      (∀ q ∈ rows,
        to_datetime_coerce parse q.start_date_raw = none ∨
        to_datetime_coerce parse q.date_of_loss_raw = none →
        fillRow cols (parseDates parse q) ∉ cleanTable parse cols rows) := by
  intro parse cols rows
  have hmem : ∀ r ∈ cleanTable parse cols rows, requiredOk r = true := by
    intro r hr
    obtain ⟨q, _, hreq, rfl⟩ := mem_cleanTable_elim hr
    simpa [requiredOk, fillRow] using hreq
  refine ⟨fun r hr => ?_, fun q _ hamt hr => ?_, fun q _ hdate hr => ?_⟩
  · have := hmem r hr
    simp only [requiredOk, Bool.and_eq_true] at this
    exact ⟨this.1.1.1.1, this.1.1.1.2, this.1.1.2, this.1.2, this.2⟩
  · have := hmem _ hr
    simp [requiredOk, fillRow, parseDates, hamt] at this
  · have := hmem _ hr
    rcases hdate with h | h <;>
      simp [requiredOk, fillRow, parseDates, h] at this

/-- Witness for C3: on a concrete two-row table whose second row has a
null `Claim Amount`, that row is excluded from the cleaned table. -/
theorem clean_required_nonnull_witness :
    (rawNoAmt ∈ [rawGood, rawNoAmt] ∧ rawNoAmt.claim_amount = none) ∧
    fillRow cols0 (parseDates parse0 rawNoAmt) ∉
      cleanTable parse0 cols0 [rawGood, rawNoAmt] := by
  have hm : rawNoAmt ∈ [rawGood, rawNoAmt] :=
    List.mem_cons_of_mem rawGood (List.mem_cons_self rawNoAmt [])
  exact ⟨⟨hm, rfl⟩,
    (clean_required_nonnull parse0 cols0 [rawGood, rawNoAmt]).2.1 rawNoAmt hm rfl⟩

/-- C6: for each optional column — if it is absent from the header, every
cleaned row gets the fixed sentinel `"ALL"` in that field; if it is
present, a null cell becomes `"UNKNOWN"` and a non-null cell is kept
unchanged.  Stated for each of the four optional fields, and lifted to
every row of the cleaned table. -/
theorem optional_fill_semantics :
    ∀ (cols : List String) (p : PRow),
      ((cols.contains "Kode Okupasi" = false →
          (fillRow cols p).kode_okupasi = some "ALL") ∧
       (cols.contains "Kode Okupasi" = true → p.kode_okupasi = none →
          (fillRow cols p).kode_okupasi = some "UNKNOWN") ∧
       (cols.contains "Kode Okupasi" = true → ∀ s, p.kode_okupasi = some s →
          (fillRow cols p).kode_okupasi = some s)) ∧
      ((cols.contains "Occupancy" = false →
          (fillRow cols p).occupancy = some "ALL") ∧
       (cols.contains "Occupancy" = true → p.occupancy = none →
          (fillRow cols p).occupancy = some "UNKNOWN") ∧
       (cols.contains "Occupancy" = true → ∀ s, p.occupancy = some s →
          (fillRow cols p).occupancy = some s)) ∧
      ((cols.contains "Kategori Risiko" = false →
          (fillRow cols p).kategori_risiko = some "ALL") ∧
       (cols.contains "Kategori Risiko" = true → p.kategori_risiko = none →
          (fillRow cols p).kategori_risiko = some "UNKNOWN") ∧
       (cols.contains "Kategori Risiko" = true → ∀ s, p.kategori_risiko = some s →
          (fillRow cols p).kategori_risiko = some s)) ∧
      ((cols.contains "Channel Business" = false →
          (fillRow cols p).channel = some "ALL") ∧
       (cols.contains "Channel Business" = true → p.channel = none →
          (fillRow cols p).channel = some "UNKNOWN") ∧
       (cols.contains "Channel Business" = true → ∀ s, p.channel = some s →
          (fillRow cols p).channel = some s)) ∧
      (∀ (parse : String → Option Int) (rows : List RawRow),
        cols.contains "Occupancy" = false →
        ∀ r ∈ cleanTable parse cols rows, r.occupancy = some "ALL") := by
  intro cols p
  refine ⟨⟨fun h => ?_, fun h h0 => ?_, fun h s hs => ?_⟩,
    ⟨fun h => ?_, fun h h0 => ?_, fun h s hs => ?_⟩,
    ⟨fun h => ?_, fun h h0 => ?_, fun h s hs => ?_⟩,
    ⟨fun h => ?_, fun h h0 => ?_, fun h s hs => ?_⟩,
    fun parse rows h r hr => ?_⟩
  case refine_13 =>
    obtain ⟨q, _, _, rfl⟩ := mem_cleanTable_elim hr
    simp only [fillRow, fillOptional]
    rw [h]
    simp
  all_goals simp only [fillRow, fillOptional]
  all_goals rw [h]
  all_goals simp [*]

/-- Witness for C6: with no `Occupancy` column in the header the cleaned
row's occupancy is `"ALL"`; with the column present, a null cell becomes
`"UNKNOWN"`. -/
theorem optional_fill_semantics_witness :
    (cols0.contains "Occupancy" = false ∧
      (fillRow cols0 (parseDates parse0 rawGood)).occupancy = some "ALL") ∧
    (colsAll.contains "Occupancy" = true ∧
      (parseDates parse0 rawGood).occupancy = none ∧
      (fillRow colsAll (parseDates parse0 rawGood)).occupancy = some "UNKNOWN") :=
  ⟨⟨by decide,
    (optional_fill_semantics cols0 (parseDates parse0 rawGood)).2.1.1 (by decide)⟩,
   ⟨by decide, rfl,
    (optional_fill_semantics colsAll (parseDates parse0 rawGood)).2.1.2.1
      (by decide) rfl⟩⟩

/-- C7: `pd.to_datetime(..., errors="coerce")` is modelled by a total
function, so it never raises; an unparseable value becomes null, a null
cell stays null, a row with a null parsed date fails the required-field
check, and every row surviving the drop passes that check — so the
affected row is silently excluded rather than reported. -/
theorem coerce_silent_exclusion :
    ∀ parse : String → Option Int,
      (∀ s, parse s = none → to_datetime_coerce parse (some s) = none) ∧
      (∀ s d, parse s = some d → to_datetime_coerce parse (some s) = some d) ∧
      to_datetime_coerce parse none = none ∧
      (∀ q : RawRow,
        (parseDates parse q).start_date = none ∨
        (parseDates parse q).date_of_loss = none →
        requiredOk (parseDates parse q) = false) ∧
      (∀ rs : List PRow, ∀ p ∈ dropMissing rs, requiredOk p = true) := by
  intro parse
  refine ⟨fun s hs => ?_, fun s d hs => ?_, rfl, fun q hq => ?_, fun rs p hp => ?_⟩
  · simp [to_datetime_coerce, hs]
  · simp [to_datetime_coerce, hs]
  · rcases hq with h | h <;> simp [requiredOk, parseDates, h] at h ⊢ <;>
      simp [h]
  · exact (List.mem_filter.mp hp).2

/-- Witness for C7: a concrete all-rejecting parser maps a concrete cell
to null and the resulting row fails the required-field check. -/
theorem coerce_silent_exclusion_witness :
    parseNone "2021-01-01" = none ∧
    to_datetime_coerce parseNone (some "2021-01-01") = none ∧
    (parseDates parseNone rawGood).start_date = none ∧
    requiredOk (parseDates parseNone rawGood) = false :=
  ⟨rfl, (coerce_silent_exclusion parseNone).1 "2021-01-01" rfl, rfl,
    (coerce_silent_exclusion parseNone).2.2.2.1 rawGood (Or.inl rfl)⟩

/-- C4: if any required canonical column is absent from the normalized
header, the pipeline halts before cleaning, reporting exactly the list of
missing names; otherwise it proceeds to the cleaned table.
`missing_required` lists exactly the required names absent from the
header; a header missing only `Cause of Loss` is reported as
`["Cause of Loss"]`. -/
theorem schema_validator_halts :
    (∀ (parse : String → Option Int) (tbl : RawTable),
      (∀ c, c ∈ missing_required (normalizeCols tbl.cols) ↔
        c ∈ REQUIRED_COLS ∧ c ∉ normalizeCols tbl.cols) ∧
      (missing_required (normalizeCols tbl.cols) ≠ [] →
        pipeline parse tbl =
          Except.error (missing_required (normalizeCols tbl.cols))) ∧
      (missing_required (normalizeCols tbl.cols) = [] →
        pipeline parse tbl =
          Except.ok (cleanTable parse (normalizeCols tbl.cols) tbl.rows))) ∧
    (∀ (parse : String → Option Int) (rows : List RawRow),
      pipeline parse
        ⟨["Nomor klaim", "StartDate", "Date of Loss", "Claim Amount"], rows⟩ =
        Except.error ["Cause of Loss"]) := by
  constructor
  · intro parse tbl
    refine ⟨fun c => ?_, fun h => ?_, fun h => ?_⟩
    · simp [missing_required, List.mem_filter]
    · simp only [pipeline]
      rw [if_neg]
      simpa [List.isEmpty_iff] using h
    · simp only [pipeline]
      rw [if_pos]
      simpa [List.isEmpty_iff] using h
  · intro parse rows
    rfl

/-- Witness for C4: a header consisting of `StartDate` alone has a
non-empty missing list, and the pipeline halts with exactly that list. -/
theorem schema_validator_halts_witness :
    missing_required (normalizeCols ["StartDate"]) ≠ [] ∧
    pipeline parseNone ⟨["StartDate"], []⟩ =
      Except.error (missing_required (normalizeCols ["StartDate"])) :=
  ⟨by decide,
    (schema_validator_halts.1 parseNone ⟨["StartDate"], []⟩).2.1 (by decide)⟩

/-- The deduplicator key list is a permutation of the distinct claim ids. -/
theorem keyList_perm (rows : List Row) :
    (keyList rows).Perm (rows.map Row.claim_id).dedup :=
  List.perm_insertionSort _ _

/-- A key occurs in the key list iff some cleaned row bears it. -/
theorem mem_keyList {rows : List Row} {k : String} :
    k ∈ keyList rows ↔ k ∈ rows.map Row.claim_id :=
  (keyList_perm rows).mem_iff.trans (List.mem_dedup)

/-- The key list has no duplicate keys. -/
theorem keyList_nodup (rows : List Row) : (keyList rows).Nodup :=
  (keyList_perm rows).nodup_iff.mpr (List.nodup_dedup _)

/-- The key list is ascending (pandas `groupby` default key sorting). -/
theorem keyList_sorted (rows : List Row) :
    List.Sorted (· ≤ ·) (keyList rows) :=
  List.sorted_insertionSort _ _

/-- The claim ids of the deduplicated table are exactly the key list. -/
theorem dedup_map_claim_id (rows : List Row) :
    (dedup rows).map Row.claim_id = keyList rows := by
  simp only [dedup, List.map_map]
  exact List.map_id _

/-- A key borne by some row has a non-empty group. -/
theorem group_ne_nil {rows : List Row} {k : String}
    (h : k ∈ rows.map Row.claim_id) : group rows k ≠ [] := by
  obtain ⟨r, hr, rfl⟩ := List.mem_map.mp h
  intro hnil
  have hmem : r ∈ group rows r.claim_id :=
    List.mem_filter.mpr ⟨hr, by simp⟩
  rw [hnil] at hmem
  cases hmem

/-- Folding `min` over a list never exceeds the initial accumulator. -/
theorem foldl_min_le_init (l : List Int) : ∀ a : Int, l.foldl min a ≤ a := by
  induction l with
  | nil => intro a; simp
  | cons x xs ih => intro a; exact le_trans (ih (min a x)) (min_le_left a x)

/-- Folding `min` over a list never exceeds any element. -/
theorem foldl_min_le_mem (l : List Int) :
    ∀ a : Int, ∀ x ∈ l, l.foldl min a ≤ x := by
  induction l with
  | nil => intro a x hx; cases hx
  | cons y ys ih =>
    intro a x hx
    rcases List.mem_cons.mp hx with rfl | hx'
    · exact le_trans (foldl_min_le_init ys (min a x)) (min_le_right a x)
    · exact ih (min a y) x hx'

/-- Folding `min` returns the accumulator or an element of the list. -/
theorem foldl_min_mem (l : List Int) :
    ∀ a : Int, l.foldl min a = a ∨ l.foldl min a ∈ l := by
  induction l with
  | nil => intro a; left; rfl
  | cons y ys ih =>
    intro a
    rcases ih (min a y) with h | h
    · rcases min_choice a y with hm | hm
      · left; rw [List.foldl_cons, h, hm]
      · right; rw [List.foldl_cons, h, hm]; exact List.mem_cons_self y ys
    · right; exact List.mem_cons_of_mem y h

/-- The `"min"` aggregation of a non-empty group is attained by a group
member and bounds every group member from below. -/
theorem aggMin_spec (f : Row → Int) (g : List Row) (hg : g ≠ []) :
    aggMin f g ∈ g.map f ∧ ∀ x ∈ g, aggMin f g ≤ f x := by
  match g with
  | r :: rs =>
    have he : aggMin f (r :: rs) = (rs.map f).foldl min (f r) := by
      simp [aggMin, List.foldl_map]
    constructor
    · rcases foldl_min_mem (rs.map f) (f r) with h | h
      · rw [List.map_cons, he, h]; exact List.mem_cons_self _ _
      · rw [List.map_cons, he]; exact List.mem_cons_of_mem _ h
    · intro x hx
      rcases List.mem_cons.mp hx with rfl | hx'
      · rw [he]; exact foldl_min_le_init _ _
      · rw [he]; exact foldl_min_le_mem _ _ _ (List.mem_map_of_mem f hx')

/-- The merged row of a group carries the group key as claim id. -/
theorem mergeGroup_claim_id (k : String) (g : List Row) :
    (mergeGroup k g).claim_id = k := rfl

/-- C5: the deduplicated table has pairwise-distinct claim ids, exactly
one row per distinct claim id of the cleaned input, and no more rows than
the cleaned input. -/
theorem dedup_unique_ids :
    ∀ rows : List Row,
      ((dedup rows).map Row.claim_id).Nodup ∧
      (∀ k, k ∈ (dedup rows).map Row.claim_id ↔ k ∈ rows.map Row.claim_id) ∧
      (dedup rows).length ≤ rows.length := by
  intro rows
  refine ⟨?_, fun k => ?_, ?_⟩
  · rw [dedup_map_claim_id]; exact keyList_nodup rows
  · rw [dedup_map_claim_id]; exact mem_keyList
  · have h1 : (dedup rows).length = (keyList rows).length := by
      simp [dedup]
    rw [h1, (keyList_perm rows).length_eq]
    calc (rows.map Row.claim_id).dedup.length
        ≤ (rows.map Row.claim_id).length := (List.dedup_sublist _).length_le
      _ = rows.length := List.length_map _ _

/-- C10: the deduplicated rows are emitted in strictly ascending order of
claim id (pandas `groupby` sorts the keys), i.e. the output id sequence is
the sorted sequence of the distinct claim ids of the cleaned input, not
their first-appearance order. -/
theorem dedup_sorted_by_claim_id :
    ∀ rows : List Row,
      List.Sorted (· < ·) ((dedup rows).map Row.claim_id) ∧
      (∀ k, k ∈ (dedup rows).map Row.claim_id ↔ k ∈ rows.map Row.claim_id) := by
  intro rows
  refine ⟨?_, fun k => ?_⟩
  · rw [dedup_map_claim_id]
    exact ((keyList_sorted rows).and (keyList_nodup rows)).imp
      (fun h => lt_of_le_of_ne h.1 h.2)
  · rw [dedup_map_claim_id]; exact mem_keyList

/-- C1: each deduplicated row merges its group (the cleaned rows bearing
its claim id, in original order): `start_date` and `date_of_loss` are the
group minima, `claim_amount` is the group sum (conservation law), and the
five categorical fields are taken from the first row of the group. -/
theorem dedup_merge_rules :
    ∀ (rows : List Row), ∀ r ∈ dedup rows,
      group rows r.claim_id ≠ [] ∧
      (r.start_date ∈ (group rows r.claim_id).map Row.start_date ∧
        ∀ x ∈ group rows r.claim_id, r.start_date ≤ x.start_date) ∧
      (r.date_of_loss ∈ (group rows r.claim_id).map Row.date_of_loss ∧
        ∀ x ∈ group rows r.claim_id, r.date_of_loss ≤ x.date_of_loss) ∧
      r.claim_amount = ((group rows r.claim_id).map Row.claim_amount).sum ∧
      (∀ x, (group rows r.claim_id).head? = some x →
        r.cause_of_loss = x.cause_of_loss ∧ r.kode_okupasi = x.kode_okupasi ∧
        r.occupancy = x.occupancy ∧ r.kategori_risiko = x.kategori_risiko ∧
        r.channel = x.channel) := by
  intro rows r hr
  simp only [dedup, List.mem_map] at hr
  obtain ⟨k, hk, rfl⟩ := hr
  simp only [mergeGroup_claim_id]
  have hg : group rows k ≠ [] := group_ne_nil (mem_keyList.mp hk)
  refine ⟨hg, ⟨(aggMin_spec Row.start_date _ hg).1,
    (aggMin_spec Row.start_date _ hg).2⟩,
    ⟨(aggMin_spec Row.date_of_loss _ hg).1,
    (aggMin_spec Row.date_of_loss _ hg).2⟩, rfl, ?_⟩
  intro x hx
  obtain ⟨y, ys, hgy⟩ := List.exists_cons_of_ne_nil hg
  rw [hgy] at hx
  have hyx : y = x := by simpa using hx
  subst hyx
  show (mergeGroup k (group rows k)).cause_of_loss = _ ∧ _
  rw [hgy]
  exact ⟨rfl, rfl, rfl, rfl, rfl⟩

/-- Witness for C1: scenario A — two cleaned rows for claim `C1` with
amounts 100 and 150, start day 0 in both, loss days 0 and 31; the merged
row sums the amounts to 250 and takes the minimum dates (day 0). -/
theorem dedup_merge_rules_witness :
    mergedA ∈ dedup scenarioA ∧
    group scenarioA mergedA.claim_id ≠ [] ∧
    mergedA.claim_amount =
      ((group scenarioA mergedA.claim_id).map Row.claim_amount).sum ∧
    mergedA.claim_amount = 250 ∧ mergedA.start_date = 0 ∧
    mergedA.date_of_loss = 0 := by
  have hded : dedup scenarioA = [mergedA] := rfl
  have hmem : mergedA ∈ dedup scenarioA := by
    rw [hded]; exact List.mem_cons_self _ _
  have h := dedup_merge_rules scenarioA mergedA hmem
  refine ⟨hmem, h.1, h.2.2.2.1, ?_, ?_, ?_⟩
  · show (mergeGroup "C1" (group scenarioA "C1")).claim_amount = 250
    norm_num [mergeGroup, aggSum, group, scenarioA, rowA1, rowA2]
  · rfl
  · show (mergeGroup "C1" (group scenarioA "C1")).date_of_loss = 0
    norm_num [mergeGroup, aggMin, group, scenarioA, rowA1, rowA2]

/-- C2: `loss_bucket` is a pure total function of the lag in months: it
returns `"0–3 bulan"` iff `x ≤ 3` (so every negative value falls in the
first bucket), `">3–6 bulan"` iff `3 < x ≤ 6`, `">6–12 bulan"` iff
`6 < x ≤ 12`, `">12–24 bulan"` iff `12 < x ≤ 24`, and `">24 bulan"` iff
`x > 24`; in particular `3.0` maps to `"0–3 bulan"` and `3.01` to
`">3–6 bulan"`. -/
theorem loss_bucket_characterization :
    (∀ x : ℚ,
      (loss_bucket x = "0–3 bulan" ↔ x ≤ 3) ∧
      (loss_bucket x = ">3–6 bulan" ↔ 3 < x ∧ x ≤ 6) ∧
      (loss_bucket x = ">6–12 bulan" ↔ 6 < x ∧ x ≤ 12) ∧
      (loss_bucket x = ">12–24 bulan" ↔ 12 < x ∧ x ≤ 24) ∧
      (loss_bucket x = ">24 bulan" ↔ 24 < x)) ∧
    loss_bucket 3 = "0–3 bulan" ∧
    loss_bucket (301 / 100) = ">3–6 bulan" ∧
    loss_bucket (-7) = "0–3 bulan" := by
  refine ⟨fun x => ?_, by norm_num [loss_bucket], by norm_num [loss_bucket],
    by norm_num [loss_bucket]⟩
  unfold loss_bucket
  split_ifs with h1 h2 h3 h4 <;>
    refine ⟨?_, ?_, ?_, ?_, ?_⟩ <;> simp_all <;> intros <;> linarith

/-- Summing `v / T * c` over a list of pairs equals the summed values
divided by `T` times `c`. -/
theorem pct_snd_sum (groups : List (String × ℚ)) (T c : ℚ) :
    ((groups.map (fun p => (p.1, p.2 / T * c))).map Prod.snd).sum =
      (groups.map Prod.snd).sum / T * c := by
  induction groups with
  | nil => simp
  | cons x xs ih =>
    simp only [List.map_map] at ih ⊢
    simp [ih, add_div, add_mul]

/-- When the grouped totals are non-zero, the percentage column sums to
exactly 100. -/
theorem pctColumn_sum (groups : List (String × ℚ))
    (h : (groups.map Prod.snd).sum ≠ 0) :
    ((pctColumn groups).map Prod.snd).sum = 100 := by
  have hpc : pctColumn groups =
      groups.map (fun p => (p.1, p.2 / (groups.map Prod.snd).sum * 100)) := rfl
  rw [hpc, pct_snd_sum, div_self h, one_mul]

/-- The cause-of-loss frequency totals of a non-empty table are positive. -/
theorem cause_freq_total_pos (r : Row) (rest : List Row) :
    0 < ((cause_freq (r :: rest)).map Prod.snd).sum := by
  have hkey : r.cause_of_loss ∈ causeKeys (r :: rest) := by
    have hmm : r.cause_of_loss ∈ (r :: rest).map Row.cause_of_loss :=
      List.mem_map_of_mem _ (List.mem_cons_self r rest)
    exact (List.perm_insertionSort _ _).mem_iff.mpr (List.mem_dedup.mpr hmm)
  have hmem : ((((r :: rest).filter
        (fun x => x.cause_of_loss == r.cause_of_loss)).length : ℚ)) ∈
      (cause_freq (r :: rest)).map Prod.snd := by
    simp only [cause_freq, List.map_map, List.mem_map]
    exact ⟨r.cause_of_loss, hkey, rfl⟩
  have hnonneg : ∀ x ∈ (cause_freq (r :: rest)).map Prod.snd, (0:ℚ) ≤ x := by
    intro x hx
    simp only [cause_freq, List.map_map, List.mem_map] at hx
    obtain ⟨c, _, rfl⟩ := hx
    exact Nat.cast_nonneg _
  have hle := List.single_le_sum hnonneg _ hmem
  have hr : r ∈ (r :: rest).filter
      (fun x => x.cause_of_loss == r.cause_of_loss) :=
    List.mem_filter.mpr ⟨List.mem_cons_self r rest, by simp⟩
  have hlen : 0 < ((r :: rest).filter
      (fun x => x.cause_of_loss == r.cause_of_loss)).length :=
    List.length_pos.mpr (List.ne_nil_of_mem hr)
  have hcnt : (0:ℚ) < (((r :: rest).filter
      (fun x => x.cause_of_loss == r.cause_of_loss)).length : ℚ) := by
    exact_mod_cast hlen
  linarith

/-- C8: the percentage contribution of each cause group is its value
divided by the sum of all group values times 100, applied with no guard:
a percentage entry is produced for every group whatever the total, and
when the total is zero each entry is the division-by-zero junk value
(`0` in this exact-arithmetic embedding, standing for the undefined float
result).  The frequency total vanishes only on the empty table. -/
theorem pct_unguarded_division :
    ∀ rows : List Row,
      ((pctColumn (cause_amt rows)).map Prod.fst =
        (cause_amt rows).map Prod.fst) ∧
      (((cause_amt rows).map Prod.snd).sum = 0 →
        ∀ p ∈ pctColumn (cause_amt rows), p.2 = 0) ∧
      (((cause_freq rows).map Prod.snd).sum = 0 → rows = []) := by
  intro rows
  refine ⟨?_, fun h p hp => ?_, fun h => ?_⟩
  · simp [pctColumn]
  · simp only [pctColumn, List.mem_map] at hp
    obtain ⟨q, _, rfl⟩ := hp
    simp [h]
  · match rows with
    | [] => rfl
    | r :: rest =>
      exact absurd h (cause_freq_total_pos r rest).ne'

/-- The distinct causes of `rowsZ` are just `Fire`. -/
theorem causeKeys_rowsZ : causeKeys rowsZ = ["Fire"] := by decide

/-- The amount aggregation of `rowsZ`: one group totalling zero. -/
theorem cause_amt_rowsZ : cause_amt rowsZ = [("Fire", (0:ℚ))] := by
  simp only [cause_amt, causeKeys_rowsZ]
  norm_num [rowsZ, rowZ1, rowZ2]

/-- Witness for C8: on the concrete non-empty table `rowsZ` the amounts
sum to zero, yet a percentage entry — the junk value 0 — is produced. -/
theorem pct_unguarded_division_witness :
    ((cause_amt rowsZ).map Prod.snd).sum = 0 ∧
    (("Fire", (0:ℚ)) ∈ pctColumn (cause_amt rowsZ) ∧
      (("Fire", (0:ℚ)) : String × ℚ).2 = 0) := by
  have h0 : ((cause_amt rowsZ).map Prod.snd).sum = 0 := by
    rw [cause_amt_rowsZ]; norm_num
  have hpc : pctColumn (cause_amt rowsZ) = [("Fire", (0:ℚ))] := by
    rw [cause_amt_rowsZ]; norm_num [pctColumn]
  have hmem : ("Fire", (0:ℚ)) ∈ pctColumn (cause_amt rowsZ) := by
    rw [hpc]; exact List.mem_cons_self _ _
  exact ⟨h0, hmem, (pct_unguarded_division rowsZ).2.1 h0 _ hmem⟩

/-- C9: on a non-empty filtered table the frequency-based percentage
column sums to exactly 100, and whenever the amount totals are non-zero
the amount-based percentage column sums to exactly 100 (exact arithmetic;
within floating-point tolerance in the script). -/
theorem pct_columns_sum_100 :
    ∀ rows : List Row,
      (rows ≠ [] → ((pctColumn (cause_freq rows)).map Prod.snd).sum = 100) ∧
      (((cause_amt rows).map Prod.snd).sum ≠ 0 →
        ((pctColumn (cause_amt rows)).map Prod.snd).sum = 100) := by
  intro rows
  refine ⟨fun h => ?_, fun h => pctColumn_sum _ h⟩
  match rows, h with
  | r :: rest, _ =>
    exact pctColumn_sum _ (cause_freq_total_pos r rest).ne'

/-- Witness for C9: on the one-row table `[rowZ1]` both percentage
columns sum to 100. -/
theorem pct_columns_sum_100_witness :
    ([rowZ1] ≠ [] ∧ ((cause_amt [rowZ1]).map Prod.snd).sum ≠ 0) ∧
    ((pctColumn (cause_freq [rowZ1])).map Prod.snd).sum = 100 ∧
    ((pctColumn (cause_amt [rowZ1])).map Prod.snd).sum = 100 := by
  have hca : cause_amt [rowZ1] = [("Fire", (5:ℚ))] := by
    norm_num [cause_amt, causeKeys, rowZ1]
  have hne : ((cause_amt [rowZ1]).map Prod.snd).sum ≠ 0 := by
    rw [hca]; norm_num
  exact ⟨⟨by simp, hne⟩, (pct_columns_sum_100 [rowZ1]).1 (by simp),
    (pct_columns_sum_100 [rowZ1]).2 hne⟩

end Dashboard
